import Mathlib

/-!
Verification of the answer-extraction-and-scoring pipeline of the
visual-inspection benchmark repository.

The development shallowly embeds the relevant Python code:

* `parse_answer` embeds `AnswerParser.parse_answer` (answer_parser.py):
  an ordered cascade of four regex rules over the model's output text.
  Text is modelled as `List Char`; the numeric value is modelled as `Rat`
  (the decimal value Python's `float` parses, exact at this granularity);
  an uncaught Python exception is modelled by `PyResult.raised`.
* `is_value_correct`, `is_unit_correct`, `evaluate` embed
  `Method1Evaluator` (evaluate_method1.py).
* `upsert` embeds the replace-or-append block of run_single_image.py
  (main, lines 216-239) and `runEval` embeds the resumable batch loop of
  run_full_evaluation.py (run_evaluation), with the external subprocess
  producer abstracted as a function returning `Option PredictionRecord`
  (`none` models a non-zero exit code, after which the runner calls
  `sys.exit(1)`).

Character classes and case folding are modelled at ASCII granularity,
which covers every character class the Python regexes use
(`[0-9.]`, `[a-zA-Z°/%]`, `\s`, `re.IGNORECASE`).
-/

namespace VisualInspection

/-- Python exceptions that the embedded code can raise. -/
inductive PyError where
  | valueError : PyError
  | typeError : PyError
deriving DecidableEq, Repr

/-- Result of running a piece of Python code that may raise. -/
inductive PyResult (α : Type) where
  | ok : α → PyResult α
  | raised : PyError → PyResult α
deriving DecidableEq, Repr

/-- Character class of the regex fragment `[0-9.]`. -/
def isNumChar (c : Char) : Bool :=
  c.isDigit || c == '.'

/-- Character class of the regex fragment `[a-zA-Z°/%]`. -/
def isUnitChar (c : Char) : Bool :=
  c.isAlpha || c == '°' || c == '/' || c == '%'

/-- Character class of the regex fragment `\s` (ASCII part). -/
def isSpaceChar (c : Char) : Bool :=
  c == ' ' || c == '\t' || c == '\n' || c == '\r' || c == '\x0b' || c == '\x0c'

/-- Value of a digit string, most significant digit first. -/
def natOfDigits (l : List Char) : Nat :=
  l.foldl (fun a c => a * 10 + (c.toNat - 48)) 0

/-- Python's `float` applied to a string matched by `[0-9.]+`: it succeeds
exactly on spans with at most one dot and at least one digit, yielding the
decimal value (modelled exactly as a rational): all digits over ten to the
number of digits after the dot. -/
def ratOfNumStr (l : List Char) : Option Rat :=
  if 2 ≤ l.count '.' then none
  else if l.all (fun c => c == '.') then none
  else
    let fracLen := ((l.dropWhile (fun c => c != '.')).drop 1).length
    some (mkRat (natOfDigits (l.filter (fun c => c != '.'))) (10 ^ fracLen))

/-- One attempt of the regex `([0-9.]+)\s*([a-zA-Z°/%]+)` anchored at the
start of `l`.  Returns the two capture groups and the rest of the input
after the match.  The three character classes are pairwise disjoint, so the
greedy maximal-run semantics used here agrees with Python's backtracking
regex engine on this pattern. -/
def matchNumUnit (l : List Char) : Option (List Char × List Char × List Char) :=
  let num := l.takeWhile isNumChar
  if num = [] then none
  else
    let l2 := (l.dropWhile isNumChar).dropWhile isSpaceChar
    let u := l2.takeWhile isUnitChar
    if u = [] then none
    else some (num, u, l2.dropWhile isUnitChar)

/-- Consume the literal `pat` (given lower-cased) at the start of `l`,
case-insensitively, returning the rest.  Models a literal regex fragment
under `re.IGNORECASE`. -/
def matchLitCI : List Char → List Char → Option (List Char)
  | [], l => some l
  | _ :: _, [] => none
  | p :: ps, c :: cs => if c.toLower == p then matchLitCI ps cs else none

/-- `re.search` semantics: try an anchored matcher at every position from
left to right and return the first success. -/
def searchAux {α : Type} (f : List Char → Option α) : List Char → Option α
  | [] => f []
  | c :: cs =>
    match f (c :: cs) with
    | some r => some r
    | none => searchAux f cs

/-- Anchored attempt of pattern 1, `Answer:\s*([0-9.]+)\s*([a-zA-Z°/%]+)`. -/
def matchP1At (l : List Char) : Option (List Char × List Char) :=
  match matchLitCI ("answer:".toList) l with
  | none => none
  | some rest =>
    match matchNumUnit (rest.dropWhile isSpaceChar) with
    | none => none
    | some (n, u, _) => some (n, u)

/-- Anchored attempt of pattern 2 at its `Reading:` core.  The full pattern
is `(?:Final\s+)?Reading:\s*([0-9.]+)\s*([a-zA-Z°/%]+)`; the optional
`Final\s+` prefix cannot contain another `Reading:` occurrence, so the
capture groups of the leftmost full match coincide with those found at the
leftmost viable `Reading:` occurrence. -/
def matchP2At (l : List Char) : Option (List Char × List Char) :=
  match matchLitCI ("reading:".toList) l with
  | none => none
  | some rest =>
    match matchNumUnit (rest.dropWhile isSpaceChar) with
    | none => none
    | some (n, u, _) => some (n, u)

/-- Anchored attempt of pattern 3,
`(?:approximately|around|about)\s+([0-9.]+)\s*([a-zA-Z°/%]+)`.  The three
alternatives differ within their first two characters, so at most one can
match at a given position.  Note the mandatory `\s+` after the word. -/
def matchP3At (l : List Char) : Option (List Char × List Char) :=
  match matchLitCI ("approximately".toList) l <|>
        matchLitCI ("around".toList) l <|>
        matchLitCI ("about".toList) l with
  | none => none
  | some rest =>
    match rest with
    | [] => none
    | c :: _ =>
      if isSpaceChar c then
        match matchNumUnit (rest.dropWhile isSpaceChar) with
        | none => none
        | some (n, u, _) => some (n, u)
      else none

/-- `re.search` of pattern 1 over the whole text. -/
def searchP1 (l : List Char) : Option (List Char × List Char) :=
  searchAux matchP1At l

/-- `re.search` of pattern 2 over the whole text. -/
def searchP2 (l : List Char) : Option (List Char × List Char) :=
  searchAux matchP2At l

/-- `re.search` of pattern 3 over the whole text. -/
def searchP3 (l : List Char) : Option (List Char × List Char) :=
  searchAux matchP3At l

/-- `re.findall` of pattern 4, `([0-9.]+)\s*([a-zA-Z°/%]+)`: all
non-overlapping matches from left to right, each continuing after the end
of the previous match.  The fuel argument only serves termination; every
recursive call strictly shrinks the text, so `fuel = l.length` never runs
out (see `findAllAux_fuel`). -/
def findAllAux : Nat → List Char → List (List Char × List Char)
  | 0, _ => []
  | _ + 1, [] => []
  | fuel + 1, c :: cs =>
    match matchNumUnit (c :: cs) with
    | some (n, u, rest) => (n, u) :: findAllAux fuel rest
    | none => findAllAux fuel cs

/-- `re.findall(pattern4, text)`. -/
def findAll (l : List Char) : List (List Char × List Char) :=
  findAllAux l.length l

/-- The dictionary `AnswerParser.parse_answer` returns, with `None` fields
as `Option.none`. -/
structure ParsedAnswer where
  value : Option Rat
  unit : Option (List Char)
  raw_answer : Option (List Char)
deriving DecidableEq, Repr

/-- Build the return dictionary from the two capture groups: Python runs
`float(group1)` (which raises `ValueError` on a malformed span) and formats
`raw_answer` as the number, one space, and the unit. -/
def answerFrom (num u : List Char) : PyResult ParsedAnswer :=
  match ratOfNumStr num with
  | some v => .ok ⟨some v, some u, some (num ++ ' ' :: u)⟩
  | none => .raised .valueError

/-- `AnswerParser.parse_answer` (answer_parser.py): the strictly ordered
cascade of four extraction rules; the first rule whose regex matches
determines the result, and pattern 4 takes the last of all matches. -/
def parse_answer (text : List Char) : PyResult ParsedAnswer :=
  match searchP1 text with
  | some (n, u) => answerFrom n u
  | none =>
    match searchP2 text with
    | some (n, u) => answerFrom n u
    | none =>
      match searchP3 text with
      | some (n, u) => answerFrom n u
      | none =>
        match (findAll text).getLast? with
        | some (n, u) => answerFrom n u
        | none => .ok ⟨none, none, none⟩

/-- Calling `AnswerParser.parse_answer` with an optional text, as the
pipeline's producer output is optional.  Python's `re.search` raises
`TypeError` when handed `None` instead of a string, before any pattern
logic runs. -/
def parse_answer_opt (text : Option (List Char)) : PyResult ParsedAnswer :=
  match text with
  | none => .raised .typeError
  | some t => parse_answer t

/-- Python's `str.lower` (ASCII part), as used on units. -/
def pyLower (l : List Char) : List Char :=
  l.map Char.toLower

/-- Python's `str.strip` (ASCII whitespace): drop whitespace from both
ends. -/
def pyStrip (l : List Char) : List Char :=
  ((l.dropWhile isSpaceChar).reverse.dropWhile isSpaceChar).reverse

/-- `Method1Evaluator.is_value_correct` (evaluate_method1.py): false when
either the prediction or the interval is absent, otherwise the inclusive
range check `min_val <= predicted <= max_val`. -/
def is_value_correct (predicted : Option Rat) (interval : Option (Rat × Rat)) : Bool :=
  match predicted, interval with
  | some p, some (mn, mx) => decide (mn ≤ p ∧ p ≤ mx)
  | _, _ => false

/-- `Method1Evaluator.is_unit_correct` (evaluate_method1.py): false when
either side is `None`, otherwise equality of the two units after
`.lower().strip()` on both sides. -/
def is_unit_correct (predicted expected : Option (List Char)) : Bool :=
  match predicted, expected with
  | some p, some g => pyStrip (pyLower p) == pyStrip (pyLower g)
  | _, _ => false

/-- Ground truth of one dataset item: the acceptable `[min, max]` interval
and the expected unit, either possibly absent. -/
structure GroundTruth where
  interval : Option (Rat × Rat)
  unit : Option (List Char)
deriving DecidableEq, Repr

/-- One entry of the persisted predictions file: what run_single_image.py
appends to `{model}_predictions.json` and what evaluate_method1.py reads
back.  Fields not consulted by the embedded logic (question text, image
type) are omitted. -/
structure PredictionRecord where
  question_id : String
  prediction : Option (List Char)
  predicted_value : Option Rat
  predicted_unit : Option (List Char)
  ground_truth : GroundTruth
deriving DecidableEq, Repr

/-- One entry of `detailed_results` built by `Method1Evaluator.evaluate`. -/
structure Verdict where
  question_id : String
  value_correct : Bool
  unit_correct : Bool
  both_correct : Bool
  predicted_value : Option Rat
  predicted_unit : Option (List Char)
  ground_truth_interval : Option (Rat × Rat)
  ground_truth_unit : Option (List Char)
deriving DecidableEq, Repr

/-- The metrics dictionary built by `Method1Evaluator.evaluate`. -/
structure MetricsSummary where
  total_samples : Nat
  value_accuracy : Rat
  unit_accuracy : Rat
  overall_accuracy : Rat
  value_correct_count : Nat
  unit_correct_count : Nat
  both_correct_count : Nat
deriving DecidableEq, Repr

/-- The accumulation loop of `Method1Evaluator.evaluate`: per record the
booleans `value_ok`, `unit_ok` and their conjunction, counted and collected
into `detailed_results` in input order. -/
def evalCounts : List PredictionRecord → Nat × Nat × Nat × List Verdict
  | [] => (0, 0, 0, [])
  | p :: ps =>
    let value_ok := is_value_correct p.predicted_value p.ground_truth.interval
    let unit_ok := is_unit_correct p.predicted_unit p.ground_truth.unit
    let r := evalCounts ps
    ((if value_ok then 1 else 0) + r.1,
     (if unit_ok then 1 else 0) + r.2.1,
     (if value_ok && unit_ok then 1 else 0) + r.2.2.1,
     ⟨p.question_id, value_ok, unit_ok, value_ok && unit_ok,
      p.predicted_value, p.predicted_unit,
      p.ground_truth.interval, p.ground_truth.unit⟩ :: r.2.2.2)

/-- `Method1Evaluator.evaluate` (evaluate_method1.py), with the JSON file
contents passed directly: counts the three kinds of correctness and
computes each accuracy as `correct / total` guarded by `if total > 0`,
returning the metrics together with the per-record verdicts. -/
def evaluate (predictions : List PredictionRecord) : MetricsSummary × List Verdict :=
  let total := predictions.length
  let r := evalCounts predictions
  (⟨total,
    if total > 0 then (r.1 : Rat) / (total : Rat) else 0,
    if total > 0 then (r.2.1 : Rat) / (total : Rat) else 0,
    if total > 0 then (r.2.2.1 : Rat) / (total : Rat) else 0,
    r.1, r.2.1, r.2.2.1⟩, r.2.2.2)

/-- The `question_id` column of a result collection. -/
def ids (coll : List PredictionRecord) : List String :=
  coll.map (fun r => r.question_id)

/-- The update-or-append block of run_single_image.py (main): scan
`all_predictions` for the first entry with this `question_id`; if found,
overwrite that entry in place, otherwise append the new record at the
end. -/
def upsert : List PredictionRecord → PredictionRecord → List PredictionRecord
  | [], rec => [rec]
  | p :: ps, rec =>
    if p.question_id == rec.question_id then rec :: ps
    else p :: upsert ps rec

/-- A dataset entry as consumed by the batch loop of
run_full_evaluation.py, which reads only its `question_id`. -/
structure DatasetItem where
  question_id : String
deriving DecidableEq, Repr

/-- Outcome of `run_evaluation` (run_full_evaluation.py): the final
persisted collection, the question ids the producer subprocess was invoked
for in order, and whether the run halted through `sys.exit(1)`. -/
structure RunResult where
  collection : List PredictionRecord
  invoked : List String
  halted : Bool
deriving DecidableEq, Repr

/-- The batch loop of `run_evaluation` (run_full_evaluation.py), for
producers with two outcomes.  `processedIds` is the set of question ids
loaded from the predictions file before the loop starts; it is not
updated during the run, exactly as in the source.  The external
subprocess `python run_single_image.py ...` is abstracted as `producer`:
on success (`some rec`) its observable effect is the update-or-append of
`rec` in the predictions file; `none` models a non-zero exit code, upon
which the runner stops the whole batch at once.  The subprocess has a
third observable outcome — exit code 0 with nothing persisted — modelled
by `runEvalFull` below; this two-outcome loop is its restriction (see
`runEvalFull_eq_runEval`) and suffices for scenarios that pin the
producer's behaviour on every item reached, such as the fail-fast one. -/
def runEval (producer : DatasetItem → Option PredictionRecord)
    (processedIds : List String) :
    List DatasetItem → List PredictionRecord → RunResult
  | [], coll => ⟨coll, [], false⟩
  | item :: rest, coll =>
    if item.question_id ∈ processedIds then
      runEval producer processedIds rest coll
    else
      match producer item with
      | some rec =>
        let r := runEval producer processedIds rest (upsert coll rec)
        ⟨r.collection, item.question_id :: r.invoked, r.halted⟩
      | none => ⟨coll, [item.question_id], true⟩

/-- The three outcomes the subprocess `python run_single_image.py ...`
can actually have, as observed by run_full_evaluation.py:
`wrote rec` — exit code 0 after upserting `rec` into the predictions file;
`noWrite` — exit code 0 with nothing persisted (run_single_image.py's
main prints an error block and returns cleanly when `process_single`
returns `None` after catching an internal exception, e.g. the
`ValueError` that `parse_answer` raises on a malformed numeric span);
`exitNonzero` — a non-zero exit code (an uncaught crash). -/
inductive SubprocessOutcome where
  | wrote : PredictionRecord → SubprocessOutcome
  | noWrite : SubprocessOutcome
  | exitNonzero : SubprocessOutcome
deriving DecidableEq

/-- The batch loop of `run_evaluation` with the producer subprocess kept
at its full three-outcome interface.  On `wrote rec` the predictions file
gains `rec` and the loop continues; on `noWrite` the loop also continues
— `run_evaluation` checks only the exit code, so an item can be left
unpersisted by a run that never halts; on `exitNonzero` the runner stops
the whole batch at once via `sys.exit(1)`.  `runEval` above is the
restriction of this loop to producers that never take the `noWrite` path
(see `runEvalFull_eq_runEval`). -/
def runEvalFull (producer : DatasetItem → SubprocessOutcome)
    (processedIds : List String) :
    List DatasetItem → List PredictionRecord → RunResult
  | [], coll => ⟨coll, [], false⟩
  | item :: rest, coll =>
    if item.question_id ∈ processedIds then
      runEvalFull producer processedIds rest coll
    else
      match producer item with
      | .wrote rec =>
        let r := runEvalFull producer processedIds rest (upsert coll rec)
        ⟨r.collection, item.question_id :: r.invoked, r.halted⟩
      | .noWrite =>
        let r := runEvalFull producer processedIds rest coll
        ⟨r.collection, item.question_id :: r.invoked, r.halted⟩
      | .exitNonzero => ⟨coll, [item.question_id], true⟩

/-- The dictionary `Method1SimpleVLM.process_single` returns (fields the
claims consult), with `none` for the whole result modelling the Python
`return None` taken when the body raises. -/
structure SingleResult where
  question_id : String
  prediction : Option (List Char)
  predicted_value : Option Rat
  predicted_unit : Option (List Char)
deriving DecidableEq, Repr

/-- `Method1SimpleVLM.process_single` (method1_inference.py) with the VLM
client's reply passed in as a value: when the client returned `None` the
code short-circuits to an all-`None` record without calling the parser;
otherwise it parses the reply, and the surrounding `try/except` turns any
raised exception into a `None` result. -/
def process_single (question_id : String) (vlm_response : Option (List Char)) :
    Option SingleResult :=
  match vlm_response with
  | none => some ⟨question_id, none, none, none⟩
  | some t =>
    match parse_answer t with
    | .ok parsed => some ⟨question_id, some t, parsed.value, parsed.unit⟩
    | .raised _ => none

/-- Case-sensitive occurrence of `pat` as a contiguous substring. -/
def leadsWith : List Char → List Char → Bool
  | [], _ => true
  | _ :: _, [] => false
  | p :: ps, c :: cs => p == c && leadsWith ps cs

/-- Does `pat` occur contiguously anywhere in the text? -/
def occursIn (pat : List Char) : List Char → Bool
  | [] => pat.isEmpty
  | c :: cs => leadsWith pat (c :: cs) || occursIn pat cs

/-! Helper lemmas about `upsert`. -/

theorem upsert_ids_of_mem : ∀ (coll : List PredictionRecord) (rec : PredictionRecord),
    rec.question_id ∈ ids coll → ids (upsert coll rec) = ids coll := by
  intro coll rec
  induction coll with
  | nil => intro h; simp [ids] at h
  | cons p ps ih =>
    intro h
    by_cases hpq : p.question_id = rec.question_id
    · simp [upsert, hpq, ids]
    · have h2 : rec.question_id ∈ ids ps := by
        simp [ids] at h ⊢
        rcases h with h | h
        · exact absurd h.symm hpq
        · exact h
      simp only [upsert, beq_iff_eq, if_neg hpq, ids, List.map_cons]
      simpa [ids] using ih h2

theorem upsert_length_of_mem : ∀ (coll : List PredictionRecord) (rec : PredictionRecord),
    rec.question_id ∈ ids coll → (upsert coll rec).length = coll.length := by
  intro coll rec h
  have := congrArg List.length (upsert_ids_of_mem coll rec h)
  simpa [ids] using this

theorem upsert_of_not_mem : ∀ (coll : List PredictionRecord) (rec : PredictionRecord),
    rec.question_id ∉ ids coll → upsert coll rec = coll ++ [rec] := by
  intro coll rec
  induction coll with
  | nil => intro _; rfl
  | cons p ps ih =>
    intro h
    have hpq : ¬p.question_id = rec.question_id := by
      intro he; exact h (by simp [ids, he])
    have h2 : rec.question_id ∉ ids ps := by
      intro h3; exact h (by simp [ids] at h3 ⊢; exact Or.inr h3)
    simp only [upsert, beq_iff_eq, if_neg hpq, List.cons_append]
    rw [ih h2]

theorem ids_subset_upsert : ∀ (coll : List PredictionRecord) (rec : PredictionRecord),
    ids coll ⊆ ids (upsert coll rec) := by
  intro coll rec
  by_cases h : rec.question_id ∈ ids coll
  · rw [upsert_ids_of_mem coll rec h]
    exact fun x hx => hx
  · rw [upsert_of_not_mem coll rec h]
    intro x hx
    simp only [ids, List.map_append, List.map_cons, List.map_nil, List.mem_append]
    exact Or.inl hx

theorem mem_ids_upsert_self : ∀ (coll : List PredictionRecord) (rec : PredictionRecord),
    rec.question_id ∈ ids (upsert coll rec) := by
  intro coll rec
  by_cases h : rec.question_id ∈ ids coll
  · rw [upsert_ids_of_mem coll rec h]; exact h
  · rw [upsert_of_not_mem coll rec h]; simp [ids]

theorem upsert_nodup : ∀ (coll : List PredictionRecord) (rec : PredictionRecord),
    (ids coll).Nodup → (ids (upsert coll rec)).Nodup := by
  intro coll rec h
  by_cases hm : rec.question_id ∈ ids coll
  · rw [upsert_ids_of_mem coll rec hm]; exact h
  · rw [upsert_of_not_mem coll rec hm]
    simp only [ids, List.map_append, List.map_cons, List.map_nil]
    rw [List.nodup_append]
    refine ⟨h, List.nodup_singleton _, ?_⟩
    intro x hx
    simp only [List.mem_singleton]
    intro he
    exact hm (he ▸ hx)

/-- Claim C4: reprocessing an item whose question id is already present
replaces its record in place — the length and the id column of the
collection are unchanged — while a new id is appended at the end, so that
replacement preserves uniqueness of question ids across every write. -/
theorem claim_C4_replace_in_place (coll : List PredictionRecord) (rec : PredictionRecord) :
    (rec.question_id ∈ ids coll →
      (upsert coll rec).length = coll.length ∧ ids (upsert coll rec) = ids coll) ∧
    (rec.question_id ∉ ids coll → upsert coll rec = coll ++ [rec]) ∧
    ((ids coll).Nodup → (ids (upsert coll rec)).Nodup) :=
  ⟨fun h => ⟨upsert_length_of_mem coll rec h, upsert_ids_of_mem coll rec h⟩,
   upsert_of_not_mem coll rec,
   upsert_nodup coll rec⟩

/-- Witness for C4 at a concrete two-record collection: overwriting the
record of `q1` with a different producer output keeps the length at 2 and
keeps the ids unique. -/
theorem claim_C4_witness :
    (upsert [⟨"q1", none, some 5, some ("A".toList), ⟨some (4, 6), some ("A".toList)⟩⟩,
             ⟨"q2", none, none, none, ⟨none, none⟩⟩]
      ⟨"q1", none, some (mkRat 22 5), some ("A".toList), ⟨some (4, 6), some ("A".toList)⟩⟩).length =
      ([⟨"q1", none, some 5, some ("A".toList), ⟨some (4, 6), some ("A".toList)⟩⟩,
        ⟨"q2", none, none, none, ⟨none, none⟩⟩] : List PredictionRecord).length ∧
    (ids (upsert [⟨"q1", none, some 5, some ("A".toList), ⟨some (4, 6), some ("A".toList)⟩⟩,
             ⟨"q2", none, none, none, ⟨none, none⟩⟩]
      ⟨"q1", none, some (mkRat 22 5), some ("A".toList), ⟨some (4, 6), some ("A".toList)⟩⟩)).Nodup := by
  refine ⟨((claim_C4_replace_in_place _ _).1 (by decide)).1, (claim_C4_replace_in_place _ _).2.2 ?_⟩
  decide

/-! Helper lemmas about the batch loops.  The first one ties the two
batch-loop embeddings together: the two-outcome `runEval` is exactly
`runEvalFull` restricted to producers whose subprocess either persists a
record or exits non-zero. -/

theorem runEvalFull_eq_runEval (producer : DatasetItem → Option PredictionRecord)
    (processedIds : List String) :
    ∀ (items : List DatasetItem) (coll : List PredictionRecord),
    runEvalFull
      (fun i => match producer i with
        | some r => .wrote r
        | none => .exitNonzero)
      processedIds items coll =
    runEval producer processedIds items coll := by
  intro items
  induction items with
  | nil => intro coll; rfl
  | cons item rest ih =>
    intro coll
    by_cases hp : item.question_id ∈ processedIds
    · simp only [runEvalFull, runEval, if_pos hp]
      exact ih coll
    · cases hrec : producer item with
      | some rec =>
        simp only [runEvalFull, runEval, if_neg hp, hrec]
        rw [ih (upsert coll rec)]
      | none =>
        simp only [runEvalFull, runEval, if_neg hp, hrec]

theorem runEvalFull_all_processed (producer : DatasetItem → SubprocessOutcome)
    (processedIds : List String) :
    ∀ (items : List DatasetItem) (coll : List PredictionRecord),
    (∀ i ∈ items, i.question_id ∈ processedIds) →
    runEvalFull producer processedIds items coll = ⟨coll, [], false⟩ := by
  intro items
  induction items with
  | nil => intro coll _; rfl
  | cons item rest ih =>
    intro coll h
    have h1 : item.question_id ∈ processedIds := h item (by simp)
    simp only [runEvalFull, if_pos h1]
    exact ih coll (fun i hi => h i (by simp [hi]))

theorem runEvalFull_complete_ids (producer : DatasetItem → SubprocessOutcome)
    (processedIds : List String)
    (hprod : ∀ i r, producer i = .wrote r → r.question_id = i.question_id) :
    ∀ (items : List DatasetItem) (coll : List PredictionRecord),
    (∀ i ∈ items, producer i ≠ .noWrite) →
    processedIds ⊆ ids coll →
    (runEvalFull producer processedIds items coll).halted = false →
    (∀ i ∈ items, i.question_id ∈ ids (runEvalFull producer processedIds items coll).collection) ∧
    ids coll ⊆ ids (runEvalFull producer processedIds items coll).collection := by
  intro items
  induction items with
  | nil =>
    intro coll _ _ _
    exact ⟨by simp, fun x hx => hx⟩
  | cons item rest ih =>
    intro coll hnw hsub hhalt
    by_cases hp : item.question_id ∈ processedIds
    · simp only [runEvalFull, if_pos hp] at hhalt ⊢
      obtain ⟨h1, h2⟩ := ih coll (fun i hi => hnw i (by simp [hi])) hsub hhalt
      refine ⟨?_, h2⟩
      intro i hi
      rcases List.mem_cons.mp hi with rfl | hi
      · exact h2 (hsub hp)
      · exact h1 i hi
    · cases hrec : producer item with
      | wrote rec =>
        have hsub2 : processedIds ⊆ ids (upsert coll rec) :=
          fun x hx => ids_subset_upsert coll rec (hsub hx)
        simp only [runEvalFull, if_neg hp, hrec] at hhalt ⊢
        obtain ⟨h1, h2⟩ :=
          ih (upsert coll rec) (fun i hi => hnw i (by simp [hi])) hsub2 hhalt
        refine ⟨?_, fun x hx => h2 (ids_subset_upsert coll rec hx)⟩
        intro i hi
        rcases List.mem_cons.mp hi with rfl | hi
        · have : i.question_id = rec.question_id := (hprod i rec hrec).symm
          rw [this]
          exact h2 (mem_ids_upsert_self coll rec)
        · exact h1 i hi
      | noWrite =>
        exact absurd hrec (hnw item (by simp))
      | exitNonzero =>
        simp only [runEvalFull, if_neg hp, hrec] at hhalt
        exact absurd hhalt (by simp)

/-- Claim C1: the batch runner is fail-fast.  Over a fresh dataset of three
items where the producer subprocess succeeds on the first and exits
non-zero on the second, the run halts at once: the persisted collection
contains exactly the first item's record, nothing for the second, and the
producer is invoked for the first two items only, never for the third. -/
theorem claim_C1_fail_fast (producer : DatasetItem → Option PredictionRecord)
    (i1 i2 i3 : DatasetItem) (r1 : PredictionRecord)
    (h1 : producer i1 = some r1) (h2 : producer i2 = none)
    (hid : r1.question_id = i1.question_id)
    (h31 : i3.question_id ≠ i1.question_id) (h32 : i3.question_id ≠ i2.question_id) :
    runEval producer [] [i1, i2, i3] [] =
      ⟨[r1], [i1.question_id, i2.question_id], true⟩ ∧
    ids [r1] = [i1.question_id] ∧
    i3.question_id ∉ [i1.question_id, i2.question_id] := by
  refine ⟨?_, by simp [ids, hid], by simp [h31, h32]⟩
  simp [runEval, h1, h2, upsert]

/-- Witness for C1: a concrete three-item dataset whose producer answers
`q1` and dies on `q2`; the run keeps `q1`'s record only and never reaches
`q3`. -/
theorem claim_C1_witness :
    runEval
      (fun i => if i.question_id = "q1"
        then some ⟨"q1", none, some 5, some ("A".toList), ⟨some (4, 6), some ("A".toList)⟩⟩
        else none)
      [] [⟨"q1"⟩, ⟨"q2"⟩, ⟨"q3"⟩] [] =
      ⟨[⟨"q1", none, some 5, some ("A".toList), ⟨some (4, 6), some ("A".toList)⟩⟩],
       ["q1", "q2"], true⟩ ∧
    ids [⟨"q1", none, some 5, some ("A".toList), ⟨some (4, 6), some ("A".toList)⟩⟩] = ["q1"] ∧
    ("q3" : String) ∉ (["q1", "q2"] : List String) :=
  claim_C1_fail_fast _ ⟨"q1"⟩ ⟨"q2"⟩ ⟨"q3"⟩ _
    (by decide) (by decide) (by decide) (by decide) (by decide)

/-- Counterexample for C3 as stated: the subprocess can exit with code 0
having persisted nothing (run_single_image.py's main returns cleanly when
`process_single` fails internally, e.g. through the `parse_answer`
`ValueError`), and run_evaluation checks only the exit code and moves on.
With a producer taking this path on `q1`, the first run over `[q1]` from
the empty collection completes without halting and leaves the collection
empty; the second run therefore starts from the same empty collection and
id set — it is the displayed call itself — and its invocation list is
`[q1]`, not empty: the second run processes `q1` again instead of zero
items. -/
theorem claim_C3_counterexample :
    runEvalFull (fun _ => .noWrite) (ids ([] : List PredictionRecord)) [⟨"q1"⟩] [] =
      ⟨[], ["q1"], false⟩ ∧
    (runEvalFull (fun _ => .noWrite) (ids ([] : List PredictionRecord)) [⟨"q1"⟩] []).invoked ≠
      [] := by
  refine ⟨by decide, by decide⟩

/-- Claim C3 as amended: resuming is idempotent provided no item of the
run takes the exit-0-without-write path.  If a batch run over `items` from
collection `coll0` (processed-id set loaded from `coll0`) completed
without halting, and the producer persisted a record (under the item's own
id) or halted on every item — never succeeding silently — then the run
left every item's id in the final collection `coll1`, and a second run
over the same dataset starting from `coll1` skips every item: the
producer is never invoked, nothing is written, and the final collection
is exactly `coll1` with every record unchanged. -/
theorem claim_C3_second_run_idempotent (producer : DatasetItem → SubprocessOutcome)
    (items : List DatasetItem) (coll0 coll1 : List PredictionRecord) (inv1 : List String)
    (hprod : ∀ i r, producer i = .wrote r → r.question_id = i.question_id)
    (hnw : ∀ i ∈ items, producer i ≠ .noWrite)
    (h1 : runEvalFull producer (ids coll0) items coll0 = ⟨coll1, inv1, false⟩) :
    runEvalFull producer (ids coll1) items coll1 = ⟨coll1, [], false⟩ := by
  have hhalt : (runEvalFull producer (ids coll0) items coll0).halted = false := by
    rw [h1]
  obtain ⟨hall, _⟩ :=
    runEvalFull_complete_ids producer (ids coll0) hprod items coll0 hnw
      (fun x hx => hx) hhalt
  rw [h1] at hall
  exact runEvalFull_all_processed producer (ids coll1) items coll1 hall

/-- Witness for C3: a concrete first run over `[a, b]` from the empty
collection, with a producer that always persists, completes with two
records; the second run over the same dataset processes zero items and
leaves the collection untouched. -/
theorem claim_C3_witness :
    runEvalFull (fun i => .wrote ⟨i.question_id, none, none, none, ⟨none, none⟩⟩)
      (ids [⟨"a", none, none, none, ⟨none, none⟩⟩, ⟨"b", none, none, none, ⟨none, none⟩⟩])
      [⟨"a"⟩, ⟨"b"⟩]
      [⟨"a", none, none, none, ⟨none, none⟩⟩, ⟨"b", none, none, none, ⟨none, none⟩⟩] =
      ⟨[⟨"a", none, none, none, ⟨none, none⟩⟩, ⟨"b", none, none, none, ⟨none, none⟩⟩], [], false⟩ :=
  claim_C3_second_run_idempotent _ [⟨"a"⟩, ⟨"b"⟩] [] _ ["a", "b"]
    (fun i r h => by cases h; rfl) (by decide) (by decide)

/-- Counterexample for C2 as stated: handing the extractor itself an
absent text does not return an all-absent answer — Python's `re.search`
raises `TypeError` on `None` before any pattern is tried. -/
theorem claim_C2_counterexample :
    parse_answer_opt none = .raised .typeError ∧
    parse_answer_opt none ≠ .ok ⟨none, none, none⟩ := by
  exact ⟨rfl, by decide⟩

/-- Claim C2 as amended: absent producer output is handled one level up,
in `process_single`, which returns a record whose raw text, value and unit
are all absent, without invoking the extractor and without raising; the
extractor itself raises `TypeError` on absent input. -/
theorem claim_C2_amended (question_id : String) :
    process_single question_id none = some ⟨question_id, none, none, none⟩ := rfl

/-- Claim C8: the unit check is false whenever either side is absent, and
otherwise is exactly equality of the two units after lower-casing and
stripping surrounding whitespace on both sides, as on the three quoted
examples. -/
theorem claim_C8_unit_match :
    (∀ e, is_unit_correct none e = false) ∧
    (∀ p, is_unit_correct p none = false) ∧
    (∀ a b, is_unit_correct (some a) (some b) = (pyStrip (pyLower a) == pyStrip (pyLower b))) ∧
    is_unit_correct (some ("A".toList)) (some ("a".toList)) = true ∧
    is_unit_correct (some (" A ".toList)) (some ("A".toList)) = true ∧
    is_unit_correct none (some ("A".toList)) = false := by
  refine ⟨fun e => rfl, fun p => ?_, fun a b => rfl, by decide, by decide, rfl⟩
  cases p <;> rfl

/-! Helper lemma: the accumulation loop of `evaluate` computes the three
`countP`s and maps each record to its verdict in order. -/

theorem evalCounts_spec (l : List PredictionRecord) :
    (evalCounts l).1 = l.countP (fun p => is_value_correct p.predicted_value p.ground_truth.interval) ∧
    (evalCounts l).2.1 = l.countP (fun p => is_unit_correct p.predicted_unit p.ground_truth.unit) ∧
    (evalCounts l).2.2.1 = l.countP (fun p =>
      is_value_correct p.predicted_value p.ground_truth.interval &&
      is_unit_correct p.predicted_unit p.ground_truth.unit) ∧
    (evalCounts l).2.2.2 = l.map (fun p =>
      (⟨p.question_id,
        is_value_correct p.predicted_value p.ground_truth.interval,
        is_unit_correct p.predicted_unit p.ground_truth.unit,
        is_value_correct p.predicted_value p.ground_truth.interval &&
          is_unit_correct p.predicted_unit p.ground_truth.unit,
        p.predicted_value, p.predicted_unit,
        p.ground_truth.interval, p.ground_truth.unit⟩ : Verdict)) := by
  induction l with
  | nil => exact ⟨rfl, rfl, rfl, rfl⟩
  | cons p ps ih =>
    obtain ⟨h1, h2, h3, h4⟩ := ih
    refine ⟨?_, ?_, ?_, ?_⟩ <;>
      simp [evalCounts, List.countP_cons, h1, h2, h3, h4, Nat.add_comm]

/-- Claim C9: batch scoring returns the number of records as total, the
three correctness counts (with `both = value and unit` per record, and the
value check true exactly on a present prediction inside a present
inclusive interval), and each accuracy as count over total except that
every accuracy is 0 on an empty batch, where no division happens. -/
theorem claim_C9_score_batch (records : List PredictionRecord) :
    (evaluate records).1.total_samples = records.length ∧
    (evaluate records).1.value_correct_count =
      records.countP (fun p => is_value_correct p.predicted_value p.ground_truth.interval) ∧
    (evaluate records).1.unit_correct_count =
      records.countP (fun p => is_unit_correct p.predicted_unit p.ground_truth.unit) ∧
    (evaluate records).1.both_correct_count =
      records.countP (fun p =>
        is_value_correct p.predicted_value p.ground_truth.interval &&
        is_unit_correct p.predicted_unit p.ground_truth.unit) ∧
    (evaluate records).1.value_accuracy =
      (if records.length = 0 then 0
       else ((evaluate records).1.value_correct_count : Rat) / (records.length : Rat)) ∧
    (evaluate records).1.unit_accuracy =
      (if records.length = 0 then 0
       else ((evaluate records).1.unit_correct_count : Rat) / (records.length : Rat)) ∧
    (evaluate records).1.overall_accuracy =
      (if records.length = 0 then 0
       else ((evaluate records).1.both_correct_count : Rat) / (records.length : Rat)) ∧
    (evaluate records).2 = records.map (fun p =>
      (⟨p.question_id,
        is_value_correct p.predicted_value p.ground_truth.interval,
        is_unit_correct p.predicted_unit p.ground_truth.unit,
        is_value_correct p.predicted_value p.ground_truth.interval &&
          is_unit_correct p.predicted_unit p.ground_truth.unit,
        p.predicted_value, p.predicted_unit,
        p.ground_truth.interval, p.ground_truth.unit⟩ : Verdict)) ∧
    (∀ v mn mx, is_value_correct (some v) (some (mn, mx)) = decide (mn ≤ v ∧ v ≤ mx)) ∧
    (∀ iv, is_value_correct none iv = false) ∧
    (∀ pv, is_value_correct pv none = false) ∧
    evaluate [] = (⟨0, 0, 0, 0, 0, 0, 0⟩, []) := by
  obtain ⟨h1, h2, h3, h4⟩ := evalCounts_spec records
  refine ⟨rfl, h1, h2, h3, ?_, ?_, ?_, h4, fun v mn mx => rfl, fun iv => rfl, ?_, rfl⟩
  · by_cases h : records.length = 0
    · simp [evaluate, h]
    · simp [evaluate, h, Nat.pos_of_ne_zero h]
  · by_cases h : records.length = 0
    · simp [evaluate, h]
    · simp [evaluate, h, Nat.pos_of_ne_zero h]
  · by_cases h : records.length = 0
    · simp [evaluate, h]
    · simp [evaluate, h, Nat.pos_of_ne_zero h]
  · intro pv
    cases pv <;> rfl

/-! Helper lemmas about the regex scanners. -/

theorem matchNumUnit_spec {l : List Char} {t : List Char × List Char × List Char}
    (h : matchNumUnit l = some t) :
    t.1 ≠ [] ∧ (∀ c ∈ t.1, isNumChar c = true) ∧
    t.2.1 ≠ [] ∧ (∀ c ∈ t.2.1, isUnitChar c = true) := by
  simp only [matchNumUnit] at h
  split at h
  · exact absurd h (by simp)
  · split at h
    · exact absurd h (by simp)
    · cases h
      exact ⟨by assumption, fun c hc => List.mem_takeWhile_imp hc,
             by assumption, fun c hc => List.mem_takeWhile_imp hc⟩

theorem searchAux_spec {α : Type} {P : α → Prop} {f : List Char → Option α}
    (hf : ∀ l a, f l = some a → P a) :
    ∀ l a, searchAux f l = some a → P a := by
  intro l
  induction l with
  | nil => intro a h; exact hf [] a h
  | cons c cs ih =>
    intro a h
    simp only [searchAux] at h
    split at h
    · cases h
      next heq => exact hf _ _ heq
    · exact ih a h

theorem matchP1At_spec {l : List Char} {p : List Char × List Char}
    (h : matchP1At l = some p) :
    p.1 ≠ [] ∧ (∀ c ∈ p.1, isNumChar c = true) ∧
    p.2 ≠ [] ∧ (∀ c ∈ p.2, isUnitChar c = true) := by
  simp only [matchP1At] at h
  split at h
  · exact absurd h (by simp)
  · split at h
    · exact absurd h (by simp)
    · cases h
      next t heq =>
        obtain ⟨a1, a2, a3, a4⟩ := matchNumUnit_spec heq
        exact ⟨a1, a2, a3, a4⟩

theorem matchP2At_spec {l : List Char} {p : List Char × List Char}
    (h : matchP2At l = some p) :
    p.1 ≠ [] ∧ (∀ c ∈ p.1, isNumChar c = true) ∧
    p.2 ≠ [] ∧ (∀ c ∈ p.2, isUnitChar c = true) := by
  simp only [matchP2At] at h
  split at h
  · exact absurd h (by simp)
  · split at h
    · exact absurd h (by simp)
    · cases h
      next t heq =>
        obtain ⟨a1, a2, a3, a4⟩ := matchNumUnit_spec heq
        exact ⟨a1, a2, a3, a4⟩

theorem matchP3At_spec {l : List Char} {p : List Char × List Char}
    (h : matchP3At l = some p) :
    p.1 ≠ [] ∧ (∀ c ∈ p.1, isNumChar c = true) ∧
    p.2 ≠ [] ∧ (∀ c ∈ p.2, isUnitChar c = true) := by
  simp only [matchP3At] at h
  split at h
  · exact absurd h (by simp)
  · split at h
    · exact absurd h (by simp)
    · split at h
      · split at h
        · exact absurd h (by simp)
        · cases h
          next t heq =>
            obtain ⟨a1, a2, a3, a4⟩ := matchNumUnit_spec heq
            exact ⟨a1, a2, a3, a4⟩
      · exact absurd h (by simp)

theorem findAllAux_spec :
    ∀ (fuel : Nat) (l : List Char) (p : List Char × List Char),
    p ∈ findAllAux fuel l →
    p.1 ≠ [] ∧ (∀ c ∈ p.1, isNumChar c = true) ∧
    p.2 ≠ [] ∧ (∀ c ∈ p.2, isUnitChar c = true) := by
  intro fuel
  induction fuel with
  | zero => intro l p h; simp [findAllAux] at h
  | succ n ih =>
    intro l p h
    match l with
    | [] => simp [findAllAux] at h
    | c :: cs =>
      simp only [findAllAux] at h
      split at h
      · next nn uu rest heq =>
        rcases List.mem_cons.mp h with h1 | h1
        · subst h1
          obtain ⟨a1, a2, a3, a4⟩ := matchNumUnit_spec heq
          exact ⟨a1, a2, a3, a4⟩
        · exact ih rest p h1
      · exact ih cs p h

theorem getLast?_mem {α : Type} : ∀ (l : List α) (a : α), l.getLast? = some a → a ∈ l := by
  intro l
  induction l with
  | nil => intro a h; exact absurd h (by simp)
  | cons x xs ih =>
    intro a h
    match xs, h with
    | [], h => simp at h; simp [h]
    | y :: ys, h =>
      rw [List.getLast?_cons_cons] at h
      exact List.mem_cons_of_mem x (ih a h)

theorem answerFrom_ok {num u : List Char} {r : ParsedAnswer}
    (h : answerFrom num u = .ok r) :
    ∃ v, ratOfNumStr num = some v ∧ r = ⟨some v, some u, some (num ++ ' ' :: u)⟩ := by
  simp only [answerFrom] at h
  split at h
  · cases h
    next v heq => exact ⟨v, heq, rfl⟩
  · exact absurd h (by simp)

theorem answerFrom_raised {num u : List Char}
    (h : ratOfNumStr num = none) : answerFrom num u = .raised .valueError := by
  simp only [answerFrom, h]

/-- Claim C10: every answer the extractor returns is all-or-nothing —
either value, unit and raw span are all absent, or the value is the parsed
number, the unit is a non-empty run of letter, degree, percent or slash
characters, and the raw span is the matched number, one space, and the
matched unit. -/
theorem claim_C10_all_or_nothing (text : List Char) (r : ParsedAnswer)
    (h : parse_answer text = .ok r) :
    (r.value = none ∧ r.unit = none ∧ r.raw_answer = none) ∨
    (∃ v num u, r.value = some v ∧ r.unit = some u ∧
      r.raw_answer = some (num ++ ' ' :: u) ∧
      num ≠ [] ∧ (∀ c ∈ num, isNumChar c = true) ∧
      u ≠ [] ∧ (∀ c ∈ u, isUnitChar c = true) ∧
      ratOfNumStr num = some v) := by
  have build : ∀ (num u : List Char),
      num ≠ [] → (∀ c ∈ num, isNumChar c = true) →
      u ≠ [] → (∀ c ∈ u, isUnitChar c = true) →
      answerFrom num u = .ok r →
      (r.value = none ∧ r.unit = none ∧ r.raw_answer = none) ∨
      (∃ v num' u', r.value = some v ∧ r.unit = some u' ∧
        r.raw_answer = some (num' ++ ' ' :: u') ∧
        num' ≠ [] ∧ (∀ c ∈ num', isNumChar c = true) ∧
        u' ≠ [] ∧ (∀ c ∈ u', isUnitChar c = true) ∧
        ratOfNumStr num' = some v) := by
    intro num u hn1 hn2 hu1 hu2 hok
    obtain ⟨v, hv, rfl⟩ := answerFrom_ok hok
    exact Or.inr ⟨v, num, u, rfl, rfl, rfl, hn1, hn2, hu1, hu2, hv⟩
  simp only [parse_answer] at h
  split at h
  · next n u hs =>
    obtain ⟨a1, a2, a3, a4⟩ := searchAux_spec (fun l a ha => matchP1At_spec ha) text (n, u) hs
    exact build n u a1 a2 a3 a4 h
  · split at h
    · next n u hs =>
      obtain ⟨a1, a2, a3, a4⟩ := searchAux_spec (fun l a ha => matchP2At_spec ha) text (n, u) hs
      exact build n u a1 a2 a3 a4 h
    · split at h
      · next n u hs =>
        obtain ⟨a1, a2, a3, a4⟩ := searchAux_spec (fun l a ha => matchP3At_spec ha) text (n, u) hs
        exact build n u a1 a2 a3 a4 h
      · split at h
        · next n u hs =>
          obtain ⟨a1, a2, a3, a4⟩ :=
            findAllAux_spec text.length text (n, u) (getLast?_mem _ (n, u) hs)
          exact build n u a1 a2 a3 a4 h
        · cases h
          exact Or.inl ⟨rfl, rfl, rfl⟩

/-- Witness for C10 at a concrete extraction: the answer extracted from a
text with an explicit marker has all three fields present with the matched
number, unit and raw span. -/
theorem claim_C10_witness :
    ((⟨some (mkRat 22 5), some ("A".toList), some ("4.4 A".toList)⟩ : ParsedAnswer).value = none ∧
     (⟨some (mkRat 22 5), some ("A".toList), some ("4.4 A".toList)⟩ : ParsedAnswer).unit = none ∧
     (⟨some (mkRat 22 5), some ("A".toList), some ("4.4 A".toList)⟩ : ParsedAnswer).raw_answer = none) ∨
    (∃ v num u,
      (⟨some (mkRat 22 5), some ("A".toList), some ("4.4 A".toList)⟩ : ParsedAnswer).value = some v ∧
      (⟨some (mkRat 22 5), some ("A".toList), some ("4.4 A".toList)⟩ : ParsedAnswer).unit = some u ∧
      (⟨some (mkRat 22 5), some ("A".toList), some ("4.4 A".toList)⟩ : ParsedAnswer).raw_answer =
        some (num ++ ' ' :: u) ∧
      num ≠ [] ∧ (∀ c ∈ num, isNumChar c = true) ∧
      u ≠ [] ∧ (∀ c ∈ u, isUnitChar c = true) ∧
      ratOfNumStr num = some v) :=
  claim_C10_all_or_nothing ("Answer: 4.4 A".toList) _ (by decide)

/-- Counterexample for C5 as stated: a text that contains the exact
substring `Answer: 4.4 A` but also an earlier case-insensitive
`answer: 2 V` occurrence — `re.search` returns the leftmost match, so the
extractor returns 2 and V, not 4.4 and A. -/
theorem claim_C5_counterexample :
    occursIn ("Answer: 4.4 A".toList) ("We answer: 2 V. Answer: 4.4 A".toList) = true ∧
    parse_answer ("We answer: 2 V. Answer: 4.4 A".toList) =
      .ok ⟨some 2, some ("V".toList), some ("2 V".toList)⟩ ∧
    (⟨some 2, some ("V".toList), some ("2 V".toList)⟩ : ParsedAnswer).value ≠
      some (mkRat 22 5) := by
  refine ⟨by decide, by decide, by decide⟩

/-- Claim C5 as amended: whenever the Answer-marker rule matches, the
extractor returns the result built from that rule's leftmost match and no
later rule is consulted; hence a text containing `Answer: 4.4 A` yields
value 4.4 and unit A precisely when that occurrence is the leftmost
Answer-rule match (and the unit run stops at the A). -/
theorem claim_C5_answer_marker_first (text n u : List Char)
    (h : searchP1 text = some (n, u)) :
    parse_answer text = answerFrom n u := by
  simp only [parse_answer, h]

/-- Witness for C5: reasoning text before and after the marker, with the
marker as the leftmost Answer-rule match; the extractor returns 4.4 A. -/
theorem claim_C5_witness :
    searchP1 ("The needle sits between 4 and 5. Answer: 4.4 A is my reading.".toList) =
      some ("4.4".toList, "A".toList) ∧
    parse_answer ("The needle sits between 4 and 5. Answer: 4.4 A is my reading.".toList) =
      .ok ⟨some (mkRat 22 5), some ("A".toList), some ("4.4 A".toList)⟩ :=
  ⟨by decide,
   (claim_C5_answer_marker_first
     ("The needle sits between 4 and 5. Answer: 4.4 A is my reading.".toList)
     ("4.4".toList) ("A".toList) (by decide)).trans (by decide)⟩

/-- Claim C6: when none of the three marker rules matches anywhere in the
text, the extractor's result is determined by the last number-unit pair of
the whole-text scan. -/
theorem claim_C6_fallback_last (text n u : List Char)
    (h1 : searchP1 text = none) (h2 : searchP2 text = none) (h3 : searchP3 text = none)
    (h4 : (findAll text).getLast? = some (n, u)) :
    parse_answer text = answerFrom n u := by
  simp only [parse_answer, h1, h2, h3, h4]

/-- Witness for C6: a marker-free text whose earlier scale description
`0-100 ml` contains a number-unit pair, yet the extractor returns the last
pair, 66 ml. -/
theorem claim_C6_witness :
    searchP1 ("The printed scale runs 0-100 ml and the needle points to 66 ml.".toList) = none ∧
    searchP2 ("The printed scale runs 0-100 ml and the needle points to 66 ml.".toList) = none ∧
    searchP3 ("The printed scale runs 0-100 ml and the needle points to 66 ml.".toList) = none ∧
    (findAll ("The printed scale runs 0-100 ml and the needle points to 66 ml.".toList)).getLast? =
      some ("66".toList, "ml".toList) ∧
    parse_answer ("The printed scale runs 0-100 ml and the needle points to 66 ml.".toList) =
      .ok ⟨some 66, some ("ml".toList), some ("66 ml".toList)⟩ :=
  ⟨by decide, by decide, by decide, by decide,
   (claim_C6_fallback_last
     ("The printed scale runs 0-100 ml and the needle points to 66 ml.".toList)
     ("66".toList) ("ml".toList)
     (by decide) (by decide) (by decide) (by decide)).trans (by decide)⟩

/-- Counterexample for C7 as stated: on `Answer: 1.2.3 V` the matched
numeric span `1.2.3` fails to parse as a float, and the extractor raises
`ValueError` instead of treating the candidate as no match and falling
through (which would have produced the all-absent answer here). -/
theorem claim_C7_counterexample :
    parse_answer ("Answer: 1.2.3 V".toList) = .raised .valueError ∧
    parse_answer ("Answer: 1.2.3 V".toList) ≠ .ok ⟨none, none, none⟩ := by
  refine ⟨by decide, by decide⟩

/-- Claim C7 as amended: when the Answer rule matches but its numeric span
does not parse as a float, the extractor raises `ValueError`; it does not
fall through to the next rule, so the extractor can raise on string
inputs. -/
theorem claim_C7_malformed_raises (text n u : List Char)
    (h1 : searchP1 text = some (n, u)) (h2 : ratOfNumStr n = none) :
    parse_answer text = .raised .valueError := by
  simp only [parse_answer, h1]
  exact answerFrom_raised h2

/-- Witness for C7: the concrete malformed span. -/
theorem claim_C7_witness :
    parse_answer ("Answer: 1.2.3 V".toList) = .raised .valueError :=
  claim_C7_malformed_raises _ ("1.2.3".toList) ("V".toList) (by decide) (by decide)

/-! Sanity checks of the embedding against the behaviour of the four
Python patterns, one per extraction rule. -/

theorem sanity_pattern2 : parse_answer ("Final Reading: 65 ml".toList) =
    .ok ⟨some (65 : Rat), some ("ml".toList), some ("65 ml".toList)⟩ := by decide

theorem sanity_pattern3 : parse_answer ("It reads about 66 ml today".toList) =
    .ok ⟨some (66 : Rat), some ("ml".toList), some ("66 ml".toList)⟩ := by decide

theorem sanity_no_match : parse_answer ("nothing numeric here".toList) =
    .ok ⟨none, none, none⟩ := by decide

/-! The fuel given to `findAllAux` is only a termination device: any fuel
at least the length of the text yields the same match list, so `findAll`
computes the full non-overlapping scan. -/

theorem length_dropWhile_le (p : Char → Bool) :
    ∀ l : List Char, (l.dropWhile p).length ≤ l.length := by
  intro l
  induction l with
  | nil => exact Nat.le_refl _
  | cons c cs ih =>
    by_cases h : p c
    · simp only [List.dropWhile_cons, h, if_pos]
      exact Nat.le_succ_of_le ih
    · simp [List.dropWhile_cons, h]

theorem matchNumUnit_rest_length {c : Char} {cs : List Char}
    {t : List Char × List Char × List Char}
    (h : matchNumUnit (c :: cs) = some t) : t.2.2.length ≤ cs.length := by
  simp only [matchNumUnit] at h
  split at h
  · exact absurd h (by simp)
  · next h1 =>
    split at h
    · exact absurd h (by simp)
    · cases h
      have hc : isNumChar c = true := by
        by_contra hc
        exact h1 (by simp [List.takeWhile_cons, hc])
      calc ((((c :: cs).dropWhile isNumChar).dropWhile isSpaceChar).dropWhile isUnitChar).length
          ≤ (((c :: cs).dropWhile isNumChar).dropWhile isSpaceChar).length :=
            length_dropWhile_le _ _
        _ ≤ ((c :: cs).dropWhile isNumChar).length := length_dropWhile_le _ _
        _ = (cs.dropWhile isNumChar).length := by simp [List.dropWhile_cons, hc]
        _ ≤ cs.length := length_dropWhile_le _ _

theorem findAllAux_fuel_irrel :
    ∀ (fuel1 fuel2 : Nat) (l : List Char),
    l.length ≤ fuel1 → l.length ≤ fuel2 →
    findAllAux fuel1 l = findAllAux fuel2 l := by
  intro fuel1
  induction fuel1 with
  | zero =>
    intro fuel2 l h1 _
    have : l = [] := List.eq_nil_of_length_eq_zero (Nat.le_zero.mp h1)
    subst this
    cases fuel2 <;> rfl
  | succ f ih =>
    intro fuel2 l h1 h2
    match l with
    | [] => cases fuel2 <;> rfl
    | c :: cs =>
      match fuel2 with
      | 0 => exact absurd h2 (by simp)
      | g + 1 =>
        simp only [findAllAux]
        cases hm : matchNumUnit (c :: cs) with
        | some t =>
          obtain ⟨n, u, rest⟩ := t
          have hrest : rest.length ≤ cs.length := matchNumUnit_rest_length hm
          have hcs : cs.length ≤ f := Nat.succ_le_succ_iff.mp h1
          have hcs2 : cs.length ≤ g := Nat.succ_le_succ_iff.mp h2
          show (n, u) :: findAllAux f rest = (n, u) :: findAllAux g rest
          rw [ih g rest (Nat.le_trans hrest hcs) (Nat.le_trans hrest hcs2)]
        | none =>
          show findAllAux f cs = findAllAux g cs
          exact ih g cs (Nat.succ_le_succ_iff.mp h1) (Nat.succ_le_succ_iff.mp h2)

theorem findAllAux_eq_findAll (fuel : Nat) (l : List Char) (h : l.length ≤ fuel) :
    findAllAux fuel l = findAll l :=
  findAllAux_fuel_irrel fuel l.length l h (Nat.le_refl _)

end VisualInspection
